import Mathlib

set_option maxHeartbeats 1000000

/-!
Verification development for the UN-OCHA layer downloader script
(`helper_scripts/python/donwload_un_ocha_opt.py`).

The script's pure logic is shallowly embedded here:
strings are `List Char`, remote HTTP responses are explicit environment
values, console output is a list of structured messages, and the files
written to disk are (filename, bytes) pairs.  Every definition follows
the corresponding Python function; deviations forced by the embedding
(ASCII model of `\w`, structured messages instead of raw text) are noted
at the definition concerned.
-/

/-- The regex class from `sanitize_filename`, i.e. the characters kept
as-is by `re.sub(r'[^\w\-_\. ]', '_', name)`: word characters (modelled
over ASCII: alphanumeric or underscore), hyphen, dot and space. -/
def safeChar (c : Char) : Bool :=
  c.isAlphanum || c = '_' || c = '-' || c = '.' || c = ' '

/-- `sanitize_filename`: replace every character outside the safe class
by an underscore. -/
def sanitize_filename (name : List Char) : List Char :=
  name.map (fun c => if safeChar c then c else '_')

/-- Python `str.strip()` with default argument: drop whitespace from
both ends. -/
def pyStrip (s : List Char) : List Char :=
  ((s.dropWhile Char.isWhitespace).reverse.dropWhile Char.isWhitespace).reverse

/-- The normalization `input(...).lower().strip()` applied to a user
input line (ASCII model of `str.lower`). -/
def pyNorm (s : List Char) : List Char :=
  pyStrip (s.map Char.toLower)

/-- Python's substring test `pat in s` on strings. -/
def containsSub (pat : List Char) : List Char → Bool
  | [] => pat.isEmpty
  | c :: rest => pat.isPrefixOf (c :: rest) || containsSub pat rest

/-- The `KEYWORDS` configuration constant. -/
def KEYWORDS : List (List Char) :=
  ["Obstacle".toList, "Barrier".toList, "Checkpoint".toList, "Road".toList,
   "Palestine".toList, "Gaza".toList, "West Bank".toList, "Crossing".toList,
   "Fence".toList, "Gate".toList]

/-- The keyword filter `any(k.lower() in s_name.lower() for k in KEYWORDS)`. -/
def keywordMatch (s_name : List Char) : Bool :=
  KEYWORDS.any (fun k => containsSub (k.map Char.toLower) (s_name.map Char.toLower))

/-- `s_name.replace("Hosted/", "")`: remove every (non-overlapping,
left-to-right) occurrence of the literal `Hosted/`. -/
def dropHosted : List Char → List Char
  | 'H' :: 'o' :: 's' :: 't' :: 'e' :: 'd' :: '/' :: rest => dropHosted rest
  | c :: rest => c :: dropHosted rest
  | [] => []

/-- Decimal digit character for a digit value below ten. -/
def digitChar (d : Nat) : Char :=
  if d = 0 then '0' else if d = 1 then '1' else if d = 2 then '2'
  else if d = 3 then '3' else if d = 4 then '4' else if d = 5 then '5'
  else if d = 6 then '6' else if d = 7 then '7' else if d = 8 then '8'
  else if d = 9 then '9' else '*'

/-- Fuelled decimal rendering of a natural number (most significant
digit first); the fuel bounds the number of divisions by ten. -/
def natCharsGo : Nat → Nat → List Char
  | 0, _ => []
  | fuel + 1, n =>
    if n < 10 then [digitChar n]
    else natCharsGo fuel (n / 10) ++ [digitChar (n % 10)]

/-- Decimal rendering of a natural number, as Python's `str` produces
inside an f-string. -/
def natChars (n : Nat) : List Char := natCharsGo (n + 1) n

/-- `LARGE_LAYER_THRESHOLD` configuration constant. -/
def LARGE_LAYER_THRESHOLD : Nat := 100000

/-- `chunk_size` local constant of `download_in_chunks`. -/
def chunkSize : Nat := 1000

/-- `DOWNLOAD_FOLDER` configuration constant. -/
def DOWNLOAD_FOLDER : List Char := "downloads_qgis_ready".toList

/-- The expected service type string. -/
def FEATURE_SERVER : List Char := "FeatureServer".toList

/-- The output filename
`clean_s_name + "___L" + str(l_id) + "_" + sanitize_filename(l_name) + ".geojson"`
built in `main` before saving a layer. -/
def mkFilename (clean_s_name : List Char) (l_id : Nat) (l_name : List Char) : List Char :=
  clean_s_name ++ "___L".toList ++ natChars l_id ++ "_".toList
    ++ sanitize_filename l_name ++ ".geojson".toList

/-- A GeoJSON feature, kept opaque as its serialized text. -/
abbrev Feature := List Char

/-- The parsed body of a GeoJSON response / the in-memory
FeatureCollection: only the feature list matters to the script. -/
structure FCData where
  features : List Feature
deriving DecidableEq

/-- Comma-and-space separated join, as in the serialized feature array. -/
def joinComma : List (List Char) → List Char
  | [] => []
  | [x] => x
  | x :: y :: xs => x ++ ", ".toList ++ joinComma (y :: xs)

/-- Deterministic model of `json.dump` applied to the FeatureCollection
dictionary: a fixed template around the serialized features. -/
def serialize (fc : FCData) : List Char :=
  "\x7b\"type\": \"FeatureCollection\", \"features\": [".toList
    ++ joinComma fc.features ++ "]\x7d".toList

/-- One console line printed by the script, as a structured token:
each constructor corresponds to one `print`/`sys.stdout.write` site. -/
inductive Msg where
  | header1 : Msg
  | header2 : Msg
  | catalogError (e : List Char) : Msg
  | checking (sname lname : List Char) : Msg
  | emptyLayer : Msg
  | largeLayer (n : Nat) : Msg
  | skippedMsg : Msg
  | okAuto (n : Nat) : Msg
  | unknownSize (e : List Char) : Msg
  | simpleAttempt : Msg
  | downloadingBatches (n : Nat) : Msg
  | batchError (i : Nat) (e : List Char) : Msg
  | progress (percent got total : Nat) : Msg
  | success (path : List Char) : Msg
  | failEmpty : Msg
  | serviceError (sname e : List Char) : Msg
  | allDone : Msg
deriving DecidableEq

/-- Outcome of one chunk request inside `download_in_chunks`: either the
GET raised an exception, or a response arrived with a status code and a
parsed feature list (the list is only consulted when the status is 200). -/
inductive ChunkResult where
  | http (status : Nat) (fs : List Feature) : ChunkResult
  | exn (e : List Char) : ChunkResult

/-- The features a chunk request contributes: the parsed features on a
200 response, nothing on any failure. -/
def chunkFeatures : ChunkResult → List Feature
  | ChunkResult.http s fs => if s = 200 then fs else []
  | ChunkResult.exn _ => []

/-- Fuelled model of Python's `range(s, t, chunkSize)` iteration: emit
`s` and continue from `s + chunkSize` while `s < t`.  The fuel `t`
bounds the iteration count. -/
def pyRangeGo : Nat → Nat → Nat → List Nat
  | 0, _, _ => []
  | fuel + 1, s, t => if s < t then s :: pyRangeGo fuel (s + chunkSize) t else []

/-- `range(0, t, chunk_size)` as iterated by `download_in_chunks`. -/
def pyRange1000 (t : Nat) : List Nat := pyRangeGo t 0 t

/-- Result of `download_in_chunks`: the accumulated features (the
`features` field of the returned FeatureCollection), the id slice
carried by each issued chunk request in order, and the console lines
printed during the loop. -/
structure DLOut where
  features : List Feature
  reqs : List (List Int)
  msgs : List Msg
deriving DecidableEq

/-- The chunk loop body of `download_in_chunks`, folded over the list of
window offsets; `acc` is `len(all_features)` so far, used only by the
progress line.  A 200 response extends the accumulator and prints
progress; a non-200 response falls through silently; an exception prints
the batch-error line.  Every iteration issues its request. -/
def dlGo (resp : Nat → ChunkResult) (all_ids : List Int) (total : Nat) :
    List Nat → Nat → DLOut
  | [], _ => ⟨[], [], []⟩
  | i :: rest, acc =>
    let chunk_ids := (all_ids.drop i).take chunkSize
    match resp i with
    | ChunkResult.http s fs =>
      if s = 200 then
        let r := dlGo resp all_ids total rest (acc + fs.length)
        ⟨fs ++ r.features, chunk_ids :: r.reqs,
          Msg.progress ((acc + fs.length) * 100 / total) (acc + fs.length) total :: r.msgs⟩
      else
        let r := dlGo resp all_ids total rest acc
        ⟨r.features, chunk_ids :: r.reqs, r.msgs⟩
    | ChunkResult.exn e =>
      let r := dlGo resp all_ids total rest acc
      ⟨r.features, chunk_ids :: r.reqs, Msg.batchError i e :: r.msgs⟩

/-- `download_in_chunks(layer_url, all_ids, total_count)`: batched
download over windows of `chunk_size` ids; the network is supplied as
the map `resp` from window offset to that chunk request's outcome. -/
def download_in_chunks (resp : Nat → ChunkResult) (all_ids : List Int)
    (total_count : Nat) : DLOut :=
  let r := dlGo resp all_ids total_count (pyRange1000 total_count) 0
  ⟨r.features, r.reqs, Msg.downloadingBatches total_count :: r.msgs⟩

/-- Outcome of the ID query issued by `get_layer_ids`: a 200 response
whose JSON has `objectIds`, a 200 response without that key, a non-200
status, or a raised exception. -/
inductive IdsResult where
  | ok (ids : List Int) : IdsResult
  | noIds : IdsResult
  | httpErr (status : Nat) : IdsResult
  | exn (e : List Char) : IdsResult

/-- `get_layer_ids`: returns the `(list_of_ids, error_message)` pair. -/
def get_layer_ids : IdsResult → Option (List Int) × Option (List Char)
  | IdsResult.ok ids => (some ids, none)
  | IdsResult.noIds => (none, some "Layer does not support ID querying".toList)
  | IdsResult.httpErr s => (none, some ("HTTP Error ".toList ++ natChars s))
  | IdsResult.exn e => (none, some e)

/-- Outcome of the single request issued by `simple_download`: a 200
response with a parsed body, a non-200 status (the function returns
`None`), or an exception (which propagates to the per-service handler). -/
inductive SimpleResult where
  | ok (fc : FCData) : SimpleResult
  | httpErr (status : Nat) : SimpleResult
  | exn (e : List Char) : SimpleResult

/-- The remote responses one layer can observe. -/
structure LayerEnv where
  idsR : IdsResult
  chunkR : Nat → ChunkResult
  simpleR : SimpleResult

/-- A layer descriptor from a service's layer list. -/
structure Layer where
  id : Nat
  name : List Char
deriving DecidableEq

/-- A service entry of the catalog (`name` and `type` fields). -/
structure Service where
  name : List Char
  stype : List Char
deriving DecidableEq

/-- Outcome of fetching one service's layer list: JSON with a `layers`
key, JSON without it (silently skipped), or an exception caught by the
per-service handler. -/
inductive LayersResult where
  | ok (layers : List Layer) : LayersResult
  | noLayers : LayersResult
  | exn (e : List Char) : LayersResult

/-- The remote responses one service can observe; layer environments are
keyed by the layer's position in the layer list. -/
structure ServiceEnv where
  layersR : LayersResult
  layerEnvs : Nat → LayerEnv

/-- Outcome of fetching the top-level catalog. -/
inductive CatalogResult where
  | ok (services : List Service) : CatalogResult
  | exn (e : List Char) : CatalogResult

/-- Everything a run of `main` consumes: the catalog response, the
per-service environments (keyed by position in the catalog's service
list), and the stream of lines available on standard input. -/
structure Env where
  catalogR : CatalogResult
  svcEnvs : Nat → ServiceEnv
  inputs : List (List Char)

/-- The accepted confirmation answer. -/
def yWord : List Char := ['y']

/-- The accepted refusal answer. -/
def nWord : List Char := ['n']

/-- Message of the `EOFError` Python raises when `input()` hits end of
stream; it propagates to the per-service handler. -/
def eofMsg : List Char := "EOF when reading a line".toList

/-- The `while True: choice = input(...).lower().strip(); if choice in
['y','n']: break` loop (it appears verbatim twice in `main`): consume
input lines until one normalizes to `y`/`n`, returning that normalized
choice and the remaining stream; `none` models `input()` raising
`EOFError` on an exhausted stream. -/
def askYN : List (List Char) → Option (List Char × List (List Char))
  | [] => none
  | s :: rest =>
    let c := pyNorm s
    if c = yWord ∨ c = nWord then some (c, rest) else askYN rest

/-- Result of processing one layer inside `main`: console lines, files
written, the id slice of every issued chunk request, whether the
unpaginated request was issued, the unread input stream, and the
exception (if any) propagating to the per-service handler. -/
structure LayerOut where
  msgs : List Msg
  files : List (List Char × List Char)
  reqs : List (List Int)
  simpleReq : Bool
  rest : List (List Char)
  exn : Option (List Char)
deriving DecidableEq

/-- Step 5 of `main` (`if geojson_data and len(...) > 0`): write the
sanitized-named file and print success, or print the empty-download
failure line. -/
def saveStep (clean_s_name : List Char) (ly : Layer) (geojson : Option FCData)
    (pre : List Msg) (reqs : List (List Int)) (sReq : Bool)
    (rest : List (List Char)) : LayerOut :=
  match geojson with
  | some fc =>
    if fc.features.length > 0 then
      let fn := mkFilename clean_s_name ly.id ly.name
      ⟨pre ++ [Msg.success (DOWNLOAD_FOLDER ++ '/' :: fn)],
        [(fn, serialize fc)], reqs, sReq, rest, none⟩
    else ⟨pre ++ [Msg.failEmpty], [], reqs, sReq, rest, none⟩
  | none => ⟨pre ++ [Msg.failEmpty], [], reqs, sReq, rest, none⟩

/-- Steps 4-5 of `main` for a single layer: size check via
`get_layer_ids`, the sizing decision (skip empty / prompt on large /
auto-download / prompt on unknown size), then the selected download
strategy and the save step. -/
def processLayer (clean_s_name : List Char) (ly : Layer) (lenv : LayerEnv)
    (inputs : List (List Char)) : LayerOut :=
  let m0 : List Msg := [Msg.checking clean_s_name ly.name]
  match (get_layer_ids lenv.idsR).1 with
  | some ids =>
    let total := ids.length
    if total = 0 then
      ⟨m0 ++ [Msg.emptyLayer], [], [], false, inputs, none⟩
    else if total > LARGE_LAYER_THRESHOLD then
      match askYN inputs with
      | none => ⟨m0 ++ [Msg.largeLayer total], [], [], false, [], some eofMsg⟩
      | some (c, rest) =>
        if c = yWord then
          let dl := download_in_chunks lenv.chunkR ids total
          saveStep clean_s_name ly (some ⟨dl.features⟩)
            (m0 ++ Msg.largeLayer total :: dl.msgs) dl.reqs false rest
        else
          ⟨m0 ++ [Msg.largeLayer total, Msg.skippedMsg], [], [], false, rest, none⟩
    else
      let dl := download_in_chunks lenv.chunkR ids total
      saveStep clean_s_name ly (some ⟨dl.features⟩)
        (m0 ++ Msg.okAuto total :: dl.msgs) dl.reqs false inputs
  | none =>
    let err := (get_layer_ids lenv.idsR).2.getD []
    match askYN inputs with
    | none => ⟨m0 ++ [Msg.unknownSize err], [], [], false, [], some eofMsg⟩
    | some (c, rest) =>
      if c = yWord then
        match lenv.simpleR with
        | SimpleResult.ok fc =>
          saveStep clean_s_name ly (some fc)
            (m0 ++ [Msg.unknownSize err, Msg.simpleAttempt]) [] true rest
        | SimpleResult.httpErr _ =>
          saveStep clean_s_name ly none
            (m0 ++ [Msg.unknownSize err, Msg.simpleAttempt]) [] true rest
        | SimpleResult.exn e =>
          ⟨m0 ++ [Msg.unknownSize err, Msg.simpleAttempt], [], [], true, rest, some e⟩
      else ⟨m0 ++ [Msg.unknownSize err], [], [], false, rest, none⟩

/-- The inner `for layer in l_data['layers']` loop: process each layer
in order, threading the input stream; an exception from a layer stops
the loop and is handed to the per-service handler. -/
def processLayers (clean_s_name : List Char) (lenvs : Nat → LayerEnv) :
    List Layer → Nat → List (List Char) →
    List Msg × List (List Char × List Char) × List (List Char) × Option (List Char)
  | [], _, inputs => ([], [], inputs, none)
  | ly :: rest, k, inputs =>
    let o := processLayer clean_s_name ly (lenvs k) inputs
    match o.exn with
    | some e => (o.msgs, o.files, o.rest, some e)
    | none =>
      let r := processLayers clean_s_name lenvs rest (k + 1) o.rest
      (o.msgs ++ r.1, o.files ++ r.2.1, r.2.2.1, r.2.2.2)

/-- The per-service body of `main` (steps 3-5 wrapped in the
per-service `try`): fetch the layer list, process each layer, and turn
a propagated exception into the service-error line. -/
def processService (svc : Service) (senv : ServiceEnv)
    (inputs : List (List Char)) :
    List Msg × List (List Char × List Char) × List (List Char) :=
  let clean_s_name := dropHosted svc.name
  match senv.layersR with
  | LayersResult.exn e => ([Msg.serviceError svc.name e], [], inputs)
  | LayersResult.noLayers => ([], [], inputs)
  | LayersResult.ok lys =>
    let r := processLayers clean_s_name senv.layerEnvs lys 0 inputs
    match r.2.2.2 with
    | some e => (r.1 ++ [Msg.serviceError svc.name e], r.2.1, r.2.2.1)
    | none => (r.1, r.2.1, r.2.2.1)

/-- Step 2 of `main`, the `for service in services` loop with its two
`continue` filters (keyword match, then service type); returns console
lines, files, and the services that reached layer inspection. -/
def runServices (senvs : Nat → ServiceEnv) :
    List Service → Nat → List (List Char) →
    List Msg × List (List Char × List Char) × List Service
  | [], _, _ => ([], [], [])
  | s :: rest, k, inputs =>
    if keywordMatch s.name = false then runServices senvs rest (k + 1) inputs
    else if s.stype ≠ FEATURE_SERVER then runServices senvs rest (k + 1) inputs
    else
      let p := processService s (senvs k) inputs
      let r := runServices senvs rest (k + 1) p.2.2
      (p.1 ++ r.1, p.2.1 ++ r.2.1, s :: r.2.2)

/-- Observable result of a full run of `main`: the console lines in
order, the files written (name, bytes), and the services that reached
layer inspection. -/
structure RunResult where
  msgs : List Msg
  files : List (List Char × List Char)
  inspected : List Service
deriving DecidableEq

/-- `main`: print the two header lines, fetch the catalog (a failure
prints the connection error and returns), iterate the services, and
print the completion line. -/
def runMain (env : Env) : RunResult :=
  match env.catalogR with
  | CatalogResult.exn e =>
    ⟨[Msg.header1, Msg.header2, Msg.catalogError e], [], []⟩
  | CatalogResult.ok svcs =>
    let r := runServices env.svcEnvs svcs 0 env.inputs
    ⟨[Msg.header1, Msg.header2] ++ r.1 ++ [Msg.allDone], r.2.1, r.2.2⟩

/-- All chunk requests of a run succeed with status 200 (the claim C9
side condition of no chunk failures). -/
def chunkOK (e : Env) : Prop :=
  ∀ s l i, ∃ fs, ((e.svcEnvs s).layerEnvs l).chunkR i = ChunkResult.http 200 fs

/-! ### Concrete environments used to evaluate the embedding -/

/-- A chunk responder that always answers with HTTP status 500. -/
def resp500 : Nat → ChunkResult := fun _ => ChunkResult.http 500 []

/-- A chunk responder whose requests always raise an exception. -/
def respExn : Nat → ChunkResult := fun _ => ChunkResult.exn "boom".toList

/-- A chunk responder that always succeeds with one feature. -/
def respOne : Nat → ChunkResult := fun _ => ChunkResult.http 200 ["F".toList]

/-- An object-ID list crossing the large-layer threshold. -/
def bigIds : List Int := List.replicate 100001 1

/-- A layer whose ID query reports `bigIds` and whose chunk requests all
succeed with empty feature lists. -/
def bigLayerEnv : LayerEnv :=
  ⟨IdsResult.ok bigIds, fun _ => ChunkResult.http 200 [], SimpleResult.httpErr 0⟩

/-- A small benign layer environment. -/
def smallLayerEnv : LayerEnv :=
  ⟨IdsResult.ok [5], fun _ => ChunkResult.http 200 ["F".toList], SimpleResult.httpErr 0⟩

/-- An inert service environment (no `layers` key in the response). -/
def trivialServiceEnv : ServiceEnv :=
  ⟨LayersResult.noLayers, fun _ => smallLayerEnv⟩

/-- A run whose catalog request raises an exception. -/
def envCatalogFail : Env :=
  ⟨CatalogResult.exn "boom".toList, fun _ => trivialServiceEnv, []⟩

/-- A service whose name holds the keyword `Gaza` and a character kept
nowhere in the safe filename set. -/
def svcOdd : Service := ⟨"Hosted/Gaza?Test".toList, FEATURE_SERVER⟩

/-- A service matching the keyword filter. -/
def svcGood : Service := ⟨"Hosted/Gaza_Lines".toList, FEATURE_SERVER⟩

/-- A feature-server service matching no keyword. -/
def svcOther : Service := ⟨"Hosted/Weather".toList, FEATURE_SERVER⟩

/-- A run against a service named `Hosted/Gaza?Test` with one layer
`Checkpoints` of one object ID whose chunk request succeeds. -/
def envOdd : Env :=
  ⟨CatalogResult.ok [svcOdd],
   fun _ => ⟨LayersResult.ok [⟨0, "Checkpoints".toList⟩],
     fun _ => ⟨IdsResult.ok [1], respOne, SimpleResult.httpErr 0⟩⟩,
   []⟩

/-- A run with one matching and one non-matching service. -/
def envTwo : Env :=
  ⟨CatalogResult.ok [svcGood, svcOther], fun _ => trivialServiceEnv, []⟩

/-- A benign run whose chunk requests all succeed. -/
def envOK : Env :=
  ⟨CatalogResult.ok [svcGood],
   fun _ => ⟨LayersResult.ok [⟨0, "Checkpoints".toList⟩],
     fun _ => ⟨IdsResult.ok [1], fun _ => ChunkResult.http 200 [], SimpleResult.httpErr 0⟩⟩,
   []⟩

/-! ### Helper lemmas about the downloader loop -/

theorem dlGo_features (resp : Nat → ChunkResult) (all_ids : List Int) (total : Nat) :
    ∀ (offsets : List Nat) (acc : Nat),
    (dlGo resp all_ids total offsets acc).features
      = (offsets.map (fun i => chunkFeatures (resp i))).flatten := by
  intro offsets
  induction offsets with
  | nil => intro acc; rfl
  | cons i rest ih =>
    intro acc
    simp only [dlGo, List.map_cons, List.flatten_cons]
    cases hr : resp i with
    | http s fs =>
      by_cases h200 : s = 200 <;>
        simp [h200, chunkFeatures, ih]
    | exn e => simp [chunkFeatures, ih]

theorem dlGo_reqs (resp : Nat → ChunkResult) (all_ids : List Int) (total : Nat) :
    ∀ (offsets : List Nat) (acc : Nat),
    (dlGo resp all_ids total offsets acc).reqs
      = offsets.map (fun i => (all_ids.drop i).take chunkSize) := by
  intro offsets
  induction offsets with
  | nil => intro acc; rfl
  | cons i rest ih =>
    intro acc
    simp only [dlGo, List.map_cons]
    cases hr : resp i with
    | http s fs => by_cases h200 : s = 200 <;> simp [h200, ih]
    | exn e => simp [ih]

theorem dlGo_batchError (resp : Nat → ChunkResult) (all_ids : List Int) (total : Nat) :
    ∀ (offsets : List Nat) (acc : Nat) (i : Nat) (e : List Char),
    (Msg.batchError i e ∈ (dlGo resp all_ids total offsets acc).msgs
      ↔ i ∈ offsets ∧ resp i = ChunkResult.exn e) := by
  intro offsets
  induction offsets with
  | nil => intro acc i e; simp [dlGo]
  | cons o rest ih =>
    intro acc i e
    cases hr : resp o with
    | http s fs =>
      by_cases h200 : s = 200
      · subst h200
        simp only [dlGo, hr]
        rw [if_pos trivial]
        simp only [List.mem_cons, ih]
        constructor
        · rintro (h | ⟨hm, he⟩)
          · exact absurd h (by simp)
          · exact ⟨Or.inr hm, he⟩
        · rintro ⟨(rfl | hm), he⟩
          · rw [hr] at he; exact absurd he (by simp)
          · exact Or.inr ⟨hm, he⟩
      · simp only [dlGo, hr, if_neg h200, ih, List.mem_cons]
        constructor
        · rintro ⟨hm, he⟩; exact ⟨Or.inr hm, he⟩
        · rintro ⟨(rfl | hm), he⟩
          · rw [hr] at he; exact absurd he (by simp)
          · exact ⟨hm, he⟩
    | exn e2 =>
      simp only [dlGo, hr, List.mem_cons, ih]
      constructor
      · rintro (h | ⟨hm, he⟩)
        · obtain ⟨rfl, rfl⟩ : i = o ∧ e = e2 := by
            cases h; exact ⟨rfl, rfl⟩
          exact ⟨Or.inl rfl, hr⟩
        · exact ⟨Or.inr hm, he⟩
      · rintro ⟨(rfl | hm), he⟩
        · rw [hr] at he
          obtain rfl : e2 = e := by cases he; rfl
          exact Or.inl rfl
        · exact Or.inr ⟨hm, he⟩

theorem pyRangeGo_len :
    ∀ (fuel s t : Nat), t - s ≤ fuel →
      (pyRangeGo fuel s t).length = (t - s + 999) / 1000 := by
  intro fuel
  induction fuel with
  | zero =>
    intro s t h
    have hts : t - s = 0 := by omega
    simp [pyRangeGo, hts]
  | succ n ih =>
    intro s t h
    by_cases hst : s < t
    · simp only [pyRangeGo, if_pos hst, List.length_cons]
      rw [ih (s + chunkSize) t (by simp [chunkSize]; omega)]
      simp only [chunkSize]
      omega
    · simp only [pyRangeGo, if_neg hst, List.length_nil]
      omega

theorem pyRange1000_len (t : Nat) :
    (pyRange1000 t).length = (t + 999) / 1000 := by
  have := pyRangeGo_len t 0 t (by omega)
  simpa [pyRange1000] using this

theorem pyRangeGo_sum (ids : List Int) :
    ∀ (fuel s : Nat), ids.length - s ≤ fuel →
      ((pyRangeGo fuel s ids.length).map
        (fun i => ((ids.drop i).take chunkSize).length)).sum = ids.length - s := by
  intro fuel
  induction fuel with
  | zero =>
    intro s h
    have : ¬ s < ids.length := by omega
    simp [pyRangeGo, this]
    omega
  | succ n ih =>
    intro s h
    by_cases hst : s < ids.length
    · simp only [pyRangeGo, if_pos hst, List.map_cons, List.sum_cons]
      rw [ih (s + chunkSize) (by simp [chunkSize]; omega)]
      simp only [List.length_take, List.length_drop, chunkSize]
      omega
    · simp only [pyRangeGo, if_neg hst, List.map_nil, List.sum_nil]
      omega

theorem saveStep_reqs (csn : List Char) (ly : Layer) (g : Option FCData)
    (pre : List Msg) (reqs : List (List Int)) (sReq : Bool)
    (rest : List (List Char)) :
    (saveStep csn ly g pre reqs sReq rest).reqs = reqs := by
  cases g with
  | none => rfl
  | some fc =>
    simp only [saveStep]
    split <;> rfl

theorem saveStep_rest (csn : List Char) (ly : Layer) (g : Option FCData)
    (pre : List Msg) (reqs : List (List Int)) (sReq : Bool)
    (rest : List (List Char)) :
    (saveStep csn ly g pre reqs sReq rest).rest = rest := by
  cases g with
  | none => rfl
  | some fc =>
    simp only [saveStep]
    split <;> rfl

theorem saveStep_exn (csn : List Char) (ly : Layer) (g : Option FCData)
    (pre : List Msg) (reqs : List (List Int)) (sReq : Bool)
    (rest : List (List Char)) :
    (saveStep csn ly g pre reqs sReq rest).exn = none := by
  cases g with
  | none => rfl
  | some fc =>
    simp only [saveStep]
    split <;> rfl

theorem askYN_skip (s : List Char) (rest : List (List Char))
    (hy : pyNorm s ≠ yWord) (hn : pyNorm s ≠ nWord) :
    askYN (s :: rest) = askYN rest := by
  have hcond : ¬ (pyNorm s = yWord ∨ pyNorm s = nWord) := by
    rintro (h | h)
    · exact hy h
    · exact hn h
  simp only [askYN]
  rw [if_neg hcond]

/-! ### Helper lemmas about sanitization and filenames -/

theorem safeChar_digitChar (d : Nat) (h : d < 10) : safeChar (digitChar d) = true := by
  interval_cases d <;> decide

theorem natCharsGo_safe :
    ∀ (fuel n : Nat) (c : Char), c ∈ natCharsGo fuel n → safeChar c = true := by
  intro fuel
  induction fuel with
  | zero => intro n c h; simp [natCharsGo] at h
  | succ m ih =>
    intro n c h
    by_cases h10 : n < 10
    · simp only [natCharsGo, if_pos h10, List.mem_singleton] at h
      subst h
      exact safeChar_digitChar n h10
    · simp only [natCharsGo, if_neg h10, List.mem_append, List.mem_singleton] at h
      rcases h with h | h
      · exact ih (n / 10) c h
      · subst h
        exact safeChar_digitChar (n % 10) (Nat.mod_lt n (by omega))

theorem natChars_safe (n : Nat) (c : Char) (h : c ∈ natChars n) : safeChar c = true :=
  natCharsGo_safe (n + 1) n c h

theorem sanitize_safe (name : List Char) (c : Char) (h : c ∈ sanitize_filename name) :
    safeChar c = true := by
  simp only [sanitize_filename, List.mem_map] at h
  obtain ⟨x, hx, rfl⟩ := h
  by_cases hs : safeChar x = true
  · simp [hs]
  · rw [if_neg hs]
    decide

/-! ### Helper lemmas about the main loop -/

theorem download_features (resp : Nat → ChunkResult) (ids : List Int) (total : Nat) :
    (download_in_chunks resp ids total).features
      = ((pyRange1000 total).map (fun i => chunkFeatures (resp i))).flatten :=
  dlGo_features resp ids total (pyRange1000 total) 0

theorem download_reqs (resp : Nat → ChunkResult) (ids : List Int) (total : Nat) :
    (download_in_chunks resp ids total).reqs
      = (pyRange1000 total).map (fun i => (ids.drop i).take chunkSize) :=
  dlGo_reqs resp ids total (pyRange1000 total) 0

theorem download_msgs (resp : Nat → ChunkResult) (ids : List Int) (total : Nat) :
    (download_in_chunks resp ids total).msgs
      = Msg.downloadingBatches total :: (dlGo resp ids total (pyRange1000 total) 0).msgs :=
  rfl

theorem runServices_inspected (senvs : Nat → ServiceEnv) :
    ∀ (svcs : List Service) (k : Nat) (inputs : List (List Char)),
    (runServices senvs svcs k inputs).2.2
      = svcs.filter (fun s => keywordMatch s.name && (s.stype == FEATURE_SERVER)) := by
  intro svcs
  induction svcs with
  | nil => intro k inputs; rfl
  | cons s rest ih =>
    intro k inputs
    by_cases hk : keywordMatch s.name = true
    · by_cases ht : s.stype = FEATURE_SERVER
      · simp [runServices, hk, ht, List.filter_cons, ih]
      · simp [runServices, hk, ht, List.filter_cons, ih]
    · have hk2 : keywordMatch s.name = false := by
        simpa using hk
      simp [runServices, hk2, List.filter_cons, ih]

/-! ### Reduction lemmas for the per-layer flow -/

theorem processLayer_empty (csn lname : List Char) (lid : Nat)
    (ch : Nat → ChunkResult) (sp : SimpleResult) (inputs : List (List Char)) :
    processLayer csn ⟨lid, lname⟩ ⟨IdsResult.ok [], ch, sp⟩ inputs
      = ⟨[Msg.checking csn lname, Msg.emptyLayer], [], [], false, inputs, none⟩ :=
  rfl

theorem processLayer_auto (csn lname : List Char) (lid : Nat) (ids : List Int)
    (ch : Nat → ChunkResult) (sp : SimpleResult) (inputs : List (List Char))
    (h0 : 0 < ids.length) (hle : ids.length ≤ LARGE_LAYER_THRESHOLD) :
    processLayer csn ⟨lid, lname⟩ ⟨IdsResult.ok ids, ch, sp⟩ inputs
      = saveStep csn ⟨lid, lname⟩ (some ⟨(download_in_chunks ch ids ids.length).features⟩)
          ([Msg.checking csn lname] ++ Msg.okAuto ids.length
            :: (download_in_chunks ch ids ids.length).msgs)
          (download_in_chunks ch ids ids.length).reqs false inputs := by
  have hne : ¬ ids.length = 0 := by omega
  have hgt : ¬ ids.length > LARGE_LAYER_THRESHOLD := by omega
  simp only [processLayer, get_layer_ids]
  rw [if_neg hne, if_neg hgt]

theorem processLayer_large_yes (csn lname : List Char) (lid : Nat) (ids : List Int)
    (ch : Nat → ChunkResult) (sp : SimpleResult) (inputs rest : List (List Char))
    (hgt : ids.length > LARGE_LAYER_THRESHOLD)
    (hask : askYN inputs = some (yWord, rest)) :
    processLayer csn ⟨lid, lname⟩ ⟨IdsResult.ok ids, ch, sp⟩ inputs
      = saveStep csn ⟨lid, lname⟩ (some ⟨(download_in_chunks ch ids ids.length).features⟩)
          ([Msg.checking csn lname] ++ Msg.largeLayer ids.length
            :: (download_in_chunks ch ids ids.length).msgs)
          (download_in_chunks ch ids ids.length).reqs false rest := by
  have hne : ¬ ids.length = 0 := by omega
  simp only [processLayer, get_layer_ids]
  rw [if_neg hne, if_pos hgt, hask]
  simp only []
  rw [if_pos trivial]

theorem processLayer_large_no (csn lname : List Char) (lid : Nat) (ids : List Int)
    (ch : Nat → ChunkResult) (sp : SimpleResult) (inputs rest : List (List Char))
    (hgt : ids.length > LARGE_LAYER_THRESHOLD)
    (hask : askYN inputs = some (nWord, rest)) :
    processLayer csn ⟨lid, lname⟩ ⟨IdsResult.ok ids, ch, sp⟩ inputs
      = ⟨[Msg.checking csn lname, Msg.largeLayer ids.length, Msg.skippedMsg],
          [], [], false, rest, none⟩ := by
  have hne : ¬ ids.length = 0 := by omega
  simp only [processLayer, get_layer_ids]
  rw [if_neg hne, if_pos hgt, hask]
  simp only []
  rw [if_neg (by decide : ¬ nWord = yWord)]
  rfl

theorem processLayer_large_skip (csn lname : List Char) (lid : Nat) (ids : List Int)
    (ch : Nat → ChunkResult) (sp : SimpleResult) (s : List Char)
    (rest : List (List Char)) (hgt : ids.length > LARGE_LAYER_THRESHOLD)
    (hy : pyNorm s ≠ yWord) (hn : pyNorm s ≠ nWord) :
    processLayer csn ⟨lid, lname⟩ ⟨IdsResult.ok ids, ch, sp⟩ (s :: rest)
      = processLayer csn ⟨lid, lname⟩ ⟨IdsResult.ok ids, ch, sp⟩ rest := by
  have hne : ¬ ids.length = 0 := by omega
  simp only [processLayer, get_layer_ids]
  rw [if_neg hne, if_pos hgt, if_neg hne, if_pos hgt, askYN_skip s rest hy hn]

/-! ### Claim theorems -/

/-- C1: for every layer downloaded by the chunked-by-ID strategy over M
object IDs (the call site passes `total_count = len(all_ids)`), the
downloader issues exactly ceil(M/1000) chunk requests, each carrying at
most 1000 identifiers, and the resulting FeatureCollection's feature
list is the concatenation, in arrival order, of the features returned by
each chunk request, so the final feature count equals the sum of the
per-chunk returned feature counts. -/
theorem c1_chunked_download (resp : Nat → ChunkResult) (all_ids : List Int) :
    (download_in_chunks resp all_ids all_ids.length).reqs.length
        = (all_ids.length + 999) / 1000
    ∧ (∀ r ∈ (download_in_chunks resp all_ids all_ids.length).reqs, r.length ≤ 1000)
    ∧ (download_in_chunks resp all_ids all_ids.length).features
        = ((pyRange1000 all_ids.length).map (fun i => chunkFeatures (resp i))).flatten
    ∧ (download_in_chunks resp all_ids all_ids.length).features.length
        = ((pyRange1000 all_ids.length).map
            (fun i => (chunkFeatures (resp i)).length)).sum := by
  refine ⟨?_, ?_, download_features resp all_ids all_ids.length, ?_⟩
  · rw [download_reqs, List.length_map, pyRange1000_len]
  · intro r hr
    rw [download_reqs] at hr
    simp only [List.mem_map] at hr
    obtain ⟨i, hi, rfl⟩ := hr
    exact List.length_take_le chunkSize (all_ids.drop i)
  · rw [download_features, List.length_flatten, List.map_map]
    rfl

/-- C1 witness: a concrete two-ID download issues one request that
carries both identifiers, hence at most 1000. -/
theorem c1_witness : ([(1 : Int), 2]).length ≤ 1000 :=
  (c1_chunked_download (fun _ => ChunkResult.http 200 []) [(1 : Int), 2]).2.1
    [(1 : Int), 2] (by decide)

/-- C7: when ID-based pagination fully succeeds — every chunk request
returns status 200 with exactly one feature per requested identifier —
the total downloaded feature count of the layer equals the size of its
object-ID set. -/
theorem c7_pagination_complete (resp : Nat → ChunkResult) (all_ids : List Int)
    (h : ∀ i ∈ pyRange1000 all_ids.length,
      ∃ fs, resp i = ChunkResult.http 200 fs
        ∧ fs.length = ((all_ids.drop i).take chunkSize).length) :
    (download_in_chunks resp all_ids all_ids.length).features.length
      = all_ids.length := by
  rw [download_features, List.length_flatten, List.map_map]
  have hmap : (pyRange1000 all_ids.length).map
        (List.length ∘ fun i => chunkFeatures (resp i))
      = (pyRange1000 all_ids.length).map
        (fun i => ((all_ids.drop i).take chunkSize).length) := by
    apply List.map_congr_left
    intro i hi
    obtain ⟨fs, hfs, hlen⟩ := h i hi
    simp [Function.comp, hfs, chunkFeatures, hlen]
  rw [hmap]
  have := pyRangeGo_sum all_ids all_ids.length 0 (by omega)
  simpa [pyRange1000] using this

/-- C7 witness: one id, one successful chunk with one feature. -/
theorem c7_witness :
    (download_in_chunks (fun _ => ChunkResult.http 200 ["F".toList]) [(1 : Int)]
      ([(1 : Int)].length)).features.length = ([(1 : Int)].length) := by
  apply c7_pagination_complete
  intro i hi
  have he : pyRange1000 [(1 : Int)].length = [0] := by decide
  rw [he] at hi
  obtain rfl : i = 0 := List.mem_singleton.mp hi
  exact ⟨["F".toList], rfl, by decide⟩

/-- C6 counterexample: a chunked download whose single chunk request
fails with HTTP status 500 produces no log line at all about the failure
— the full output of `download_in_chunks` is the batch header alone, the
chunk's features are omitted, and the request was issued.  This refutes
the claim that a non-200 chunk failure is logged. -/
theorem c6_counterexample :
    resp500 0 = ChunkResult.http 500 []
    ∧ download_in_chunks resp500 [(1 : Int)] 1
        = ⟨[], [[(1 : Int)]], [Msg.downloadingBatches 1]⟩ :=
  ⟨rfl, rfl⟩

/-- C6 amended: a chunk request that fails by raised exception is logged
with the batch-error line; a chunk request that fails by non-200 HTTP
status is skipped silently (no log line is produced for it); in both
cases the chunk's features are omitted from the final output and the
download continues with the remaining chunks — every window is requested
exactly once, with no retry and no abort.  Formally: the features are
the concatenation of the successful chunks' features; a batch-error line
for offset `i` appears iff the chunk at `i` raised an exception; and the
issued requests are exactly the 1000-id windows in order, regardless of
failures. -/
theorem c6_chunk_failures (resp : Nat → ChunkResult) (all_ids : List Int)
    (total : Nat) :
    (download_in_chunks resp all_ids total).features
        = ((pyRange1000 total).map (fun i => chunkFeatures (resp i))).flatten
    ∧ (∀ i e, Msg.batchError i e ∈ (download_in_chunks resp all_ids total).msgs
        ↔ i ∈ pyRange1000 total ∧ resp i = ChunkResult.exn e)
    ∧ (download_in_chunks resp all_ids total).reqs
        = (pyRange1000 total).map (fun i => (all_ids.drop i).take chunkSize) := by
  refine ⟨download_features resp all_ids total, ?_, download_reqs resp all_ids total⟩
  intro i e
  rw [download_msgs]
  simp only [List.mem_cons]
  rw [dlGo_batchError]
  constructor
  · rintro (h | h)
    · exact absurd h (by simp)
    · exact h
  · intro h
    exact Or.inr h

/-- C6 witness: an exception-failing chunk is logged with its
batch-error line. -/
theorem c6_witness :
    Msg.batchError 0 "boom".toList ∈ (download_in_chunks respExn [(1 : Int)] 1).msgs :=
  ((c6_chunk_failures respExn [(1 : Int)] 1).2.1 0 "boom".toList).mpr ⟨by decide, rfl⟩

/-- C2: for a layer whose ID query succeeds with N object IDs, if N = 0
the layer is skipped with no download attempt (no file, no requests),
and if 0 < N and N is at most the large-layer threshold of 100000 the
download proceeds automatically — the input stream is untouched (no
confirmation prompt) and the chunked download's requests are issued. -/
theorem c2_size_policy (csn lname : List Char) (lid : Nat) (ch : Nat → ChunkResult)
    (sp : SimpleResult) (ids : List Int) (inputs : List (List Char)) :
    (ids = [] →
      processLayer csn ⟨lid, lname⟩ ⟨IdsResult.ok ids, ch, sp⟩ inputs
        = ⟨[Msg.checking csn lname, Msg.emptyLayer], [], [], false, inputs, none⟩)
    ∧ (0 < ids.length → ids.length ≤ LARGE_LAYER_THRESHOLD →
        (processLayer csn ⟨lid, lname⟩ ⟨IdsResult.ok ids, ch, sp⟩ inputs).rest = inputs
        ∧ (processLayer csn ⟨lid, lname⟩ ⟨IdsResult.ok ids, ch, sp⟩ inputs).reqs
            = (download_in_chunks ch ids ids.length).reqs
        ∧ (processLayer csn ⟨lid, lname⟩ ⟨IdsResult.ok ids, ch, sp⟩ inputs).exn
            = none) := by
  constructor
  · rintro rfl
    exact processLayer_empty csn lname lid ch sp inputs
  · intro h1 h2
    rw [processLayer_auto csn lname lid ids ch sp inputs h1 h2]
    exact ⟨saveStep_rest _ _ _ _ _ _ _, saveStep_reqs _ _ _ _ _ _ _,
      saveStep_exn _ _ _ _ _ _ _⟩

/-- C2 witness: a one-ID layer is auto-downloaded, leaving the input
stream untouched. -/
theorem c2_witness :
    (processLayer "Gaza".toList ⟨0, "Lines".toList⟩
        ⟨IdsResult.ok [5], respOne, SimpleResult.httpErr 0⟩ ["later".toList]).rest
      = ["later".toList]
    ∧ (processLayer "Gaza".toList ⟨0, "Lines".toList⟩
        ⟨IdsResult.ok [5], respOne, SimpleResult.httpErr 0⟩ ["later".toList]).reqs
      = (download_in_chunks respOne [5] ([(5 : Int)]).length).reqs
    ∧ (processLayer "Gaza".toList ⟨0, "Lines".toList⟩
        ⟨IdsResult.ok [5], respOne, SimpleResult.httpErr 0⟩ ["later".toList]).exn
      = none :=
  (c2_size_policy "Gaza".toList "Lines".toList 0 respOne (SimpleResult.httpErr 0)
    [5] ["later".toList]).2 (by decide) (by decide)

/-- C3 counterexample: for a layer of 100001 object IDs (above the
threshold) with the single available user input `"Y"` — an input other
than the exact strings `"y"` and `"n"` — the script does not re-prompt
(no end-of-stream error is raised, so no second input is requested) and
it proceeds to issue the chunked download requests.  This refutes the
claim that any input other than `"y"`/`"n"` causes a re-prompt without
proceeding. -/
theorem c3_counterexample :
    ("Y".toList ≠ yWord ∧ "Y".toList ≠ nWord)
    ∧ (processLayer [] ⟨0, []⟩ bigLayerEnv ["Y".toList]).reqs ≠ []
    ∧ (processLayer [] ⟨0, []⟩ bigLayerEnv ["Y".toList]).exn = none := by
  have hlen : bigIds.length = 100001 := List.length_replicate 100001 1
  have hgt : bigIds.length > LARGE_LAYER_THRESHOLD := by rw [hlen]; decide
  have hask : askYN ["Y".toList] = some (yWord, []) := by decide
  have hred : processLayer [] ⟨0, []⟩ bigLayerEnv ["Y".toList]
      = saveStep [] ⟨0, []⟩
          (some ⟨(download_in_chunks (fun _ => ChunkResult.http 200 [])
              bigIds bigIds.length).features⟩)
          ([Msg.checking [] []] ++ Msg.largeLayer bigIds.length
            :: (download_in_chunks (fun _ => ChunkResult.http 200 [])
              bigIds bigIds.length).msgs)
          (download_in_chunks (fun _ => ChunkResult.http 200 [])
            bigIds bigIds.length).reqs false [] :=
    processLayer_large_yes [] [] 0 bigIds (fun _ => ChunkResult.http 200 [])
      (SimpleResult.httpErr 0) ["Y".toList] [] hgt hask
  refine ⟨⟨by decide, by decide⟩, ?_, ?_⟩
  · rw [hred, saveStep_reqs]
    apply List.length_pos.mp
    rw [download_reqs, List.length_map, pyRange1000_len, hlen]
    norm_num
  · rw [hred]
    exact saveStep_exn _ _ _ _ _ _ _

/-- C3 amended: for a layer whose ID query returns more than 100000
object IDs, the script downloads only after a confirmation whose
lowercased and whitespace-stripped form is `y`: an input normalizing to
neither `y` nor `n` is consumed and the prompt repeats with the rest of
the stream, unchanged in effect; a confirmation normalizing to `n`
issues no download request, writes no file, and prints the skipped
message; a confirmation normalizing to `y` issues exactly the chunked
download's requests. -/
theorem c3_large_layer_prompt (csn lname : List Char) (lid : Nat) (ids : List Int)
    (ch : Nat → ChunkResult) (sp : SimpleResult)
    (hgt : ids.length > LARGE_LAYER_THRESHOLD) :
    (∀ s rest, pyNorm s ≠ yWord → pyNorm s ≠ nWord →
      processLayer csn ⟨lid, lname⟩ ⟨IdsResult.ok ids, ch, sp⟩ (s :: rest)
        = processLayer csn ⟨lid, lname⟩ ⟨IdsResult.ok ids, ch, sp⟩ rest)
    ∧ (∀ inputs rest, askYN inputs = some (nWord, rest) →
      processLayer csn ⟨lid, lname⟩ ⟨IdsResult.ok ids, ch, sp⟩ inputs
        = ⟨[Msg.checking csn lname, Msg.largeLayer ids.length, Msg.skippedMsg],
            [], [], false, rest, none⟩)
    ∧ (∀ inputs rest, askYN inputs = some (yWord, rest) →
      (processLayer csn ⟨lid, lname⟩ ⟨IdsResult.ok ids, ch, sp⟩ inputs).reqs
        = (download_in_chunks ch ids ids.length).reqs) := by
  refine ⟨?_, ?_, ?_⟩
  · intro s rest hy hn
    exact processLayer_large_skip csn lname lid ids ch sp s rest hgt hy hn
  · intro inputs rest hask
    exact processLayer_large_no csn lname lid ids ch sp inputs rest hgt hask
  · intro inputs rest hask
    rw [processLayer_large_yes csn lname lid ids ch sp inputs rest hgt hask,
      saveStep_reqs]

/-- C3 witness: over the threshold, an input normalizing to neither `y`
nor `n` is dropped and the layer is processed with the remaining
stream. -/
theorem c3_witness :
    processLayer [] ⟨0, []⟩
        ⟨IdsResult.ok bigIds, fun _ => ChunkResult.http 200 [], SimpleResult.httpErr 0⟩
        ("maybe".toList :: [])
      = processLayer [] ⟨0, []⟩
        ⟨IdsResult.ok bigIds, fun _ => ChunkResult.http 200 [], SimpleResult.httpErr 0⟩
        [] :=
  (c3_large_layer_prompt [] [] 0 bigIds (fun _ => ChunkResult.http 200 [])
    (SimpleResult.httpErr 0)
    (by rw [show bigIds.length = 100001 from List.length_replicate 100001 1]; decide)).1
    "maybe".toList [] (by decide) (by decide)

/-- C10: the confirmation prompt loop lowercases and strips surrounding
whitespace from the user's input before comparing it with `y`/`n`, so an
input whose normalized form is `y` or `n` — such as `Y`, ` y ` or `N` —
is accepted immediately; confirmation is not restricted to the exact
lowercase string `y`. -/
theorem c10_prompt_normalization (s : List Char) (rest : List (List Char))
    (h : pyNorm s = yWord ∨ pyNorm s = nWord) :
    askYN (s :: rest) = some (pyNorm s, rest) := by
  simp only [askYN]
  rw [if_pos h]

/-- C10 witness: the raw input ` Y ` is accepted as the confirmation
`y`. -/
theorem c10_witness : askYN [" Y ".toList] = some (yWord, []) := by
  have h := c10_prompt_normalization " Y ".toList [] (by decide)
  rwa [show pyNorm " Y ".toList = yWord from by decide] at h

/-- C4 counterexample: a run against the keyword-matching service
`Hosted/Gaza?Test` saves its layer under a filename that still contains
the unsafe character `?`, because only the layer-name component passes
through `sanitize_filename`.  This refutes the claim that the entire
filename contains no characters outside the safe set. -/
theorem c4_counterexample :
    (runMain envOdd).files.map Prod.fst
        = ["Gaza?Test___L0_Checkpoints.geojson".toList]
    ∧ List.all "Gaza?Test___L0_Checkpoints.geojson".toList safeChar = false := by
  constructor
  · rfl
  · decide

/-- C4 amended: the output filename is the deterministic function
`mkFilename` of the cleaned service name, the layer id and the layer
name; the layer-id and layer-name components and the fixed separators
are within the safe set after sanitization, so any character of the
filename outside the safe set comes from the cleaned service name, which
is not sanitized. -/
theorem c4_filename_safety (clean_s_name : List Char) (lid : Nat) (lname : List Char)
    (c : Char) (hc : c ∈ mkFilename clean_s_name lid lname)
    (hbad : safeChar c = false) : c ∈ clean_s_name := by
  simp only [mkFilename, List.append_assoc, List.mem_append] at hc
  rcases hc with h | h | h | h | h | h
  · exact h
  · rw [show "___L".toList = ['_', '_', '_', 'L'] from rfl] at h
    fin_cases h <;> exact absurd hbad (by decide)
  · have hs := natChars_safe lid c h
    rw [hs] at hbad
    exact Bool.noConfusion hbad
  · rw [show "_".toList = ['_'] from rfl] at h
    fin_cases h
    exact absurd hbad (by decide)
  · have hs := sanitize_safe lname c h
    rw [hs] at hbad
    exact Bool.noConfusion hbad
  · rw [show ".geojson".toList = ['.', 'g', 'e', 'o', 'j', 's', 'o', 'n'] from rfl] at h
    fin_cases h <;> exact absurd hbad (by decide)

/-- C4 witness: the unsafe `?` in a concrete filename traces back to the
service-name component. -/
theorem c4_witness : '?' ∈ "a?".toList :=
  c4_filename_safety "a?".toList 0 "n".toList '?' (by decide) (by decide)

/-- C5 counterexample: a run whose catalog fetch raises an exception
prints the connection-error line and returns without the completion
message — `All done!` is absent from its output.  This refutes the claim
that every run, including catalog-failure runs, prints the completion
message. -/
theorem c5_counterexample :
    Msg.allDone ∉ (runMain envCatalogFail).msgs := by decide

/-- C5 amended: every run terminates; a run whose catalog fetch or parse
fails prints exactly the two headers and the connection-error line and
ends without the completion message, while every other run prints the
completion message. -/
theorem c5_run_end (env : Env) :
    (∀ e, env.catalogR = CatalogResult.exn e →
      (runMain env).msgs = [Msg.header1, Msg.header2, Msg.catalogError e])
    ∧ (∀ svcs, env.catalogR = CatalogResult.ok svcs →
      Msg.allDone ∈ (runMain env).msgs) := by
  constructor
  · intro e he
    simp [runMain, he]
  · intro svcs hs
    simp [runMain, hs]

/-- C5 witness: the catalog-failure run ends on the error line. -/
theorem c5_witness :
    (runMain envCatalogFail).msgs
      = [Msg.header1, Msg.header2, Msg.catalogError "boom".toList] :=
  (c5_run_end envCatalogFail).1 "boom".toList rfl

/-- C8: for any service list returned by the catalog, the services
reaching layer inspection are exactly those whose name contains at least
one configured keyword case-insensitively and whose type equals
`FeatureServer`; all other services are skipped. -/
theorem c8_service_filter (env : Env) (svcs : List Service)
    (h : env.catalogR = CatalogResult.ok svcs) :
    (runMain env).inspected
      = svcs.filter (fun s => keywordMatch s.name && (s.stype == FEATURE_SERVER)) := by
  simp only [runMain, h]
  exact runServices_inspected env.svcEnvs svcs 0 env.inputs

/-- C8 witness: of a matching and a non-matching service, exactly the
matching one is inspected. -/
theorem c8_witness :
    (runMain envTwo).inspected
      = [svcGood, svcOther].filter
          (fun s => keywordMatch s.name && (s.stype == FEATURE_SERVER)) :=
  c8_service_filter envTwo [svcGood, svcOther] rfl

/-- C9: two runs against identical remote responses (same catalog, same
per-service environments, hence same layer lists, ID sets and chunk
payloads, with no chunk failures) and identical user inputs write
byte-identical output files. -/
theorem c9_deterministic (e1 e2 : Env) (hok : chunkOK e1)
    (hc : e1.catalogR = e2.catalogR) (hs : e1.svcEnvs = e2.svcEnvs)
    (hi : e1.inputs = e2.inputs) :
    (runMain e1).files = (runMain e2).files := by
  cases e1 with
  | mk c1 s1 i1 =>
    cases e2 with
    | mk c2 s2 i2 =>
      have hc2 : c1 = c2 := hc
      have hs2 : s1 = s2 := hs
      have hi2 : i1 = i2 := hi
      subst hc2
      subst hs2
      subst hi2
      rfl

/-- C9 witness: a benign all-200 run compared with itself. -/
theorem c9_witness : (runMain envOK).files = (runMain envOK).files :=
  c9_deterministic envOK envOK (fun _ _ _ => ⟨[], rfl⟩) rfl rfl rfl
